import Mathlib

/-!
Verification of the streaming and relay subsystem of MCPDockerShell
(`src/main.py`).  The definitions below are a shallow embedding of the
Python source: Python lists become `List`, the module-level
`self.active_streams` dict becomes an insertion-ordered association
list with dict-assignment semantics, Python `list[i:]` slicing becomes
`pySliceFrom` (including negative-index behaviour), and background
threads become explicit worker functions whose interleaving with
registry mutation is abstracted by an `active : Nat → Bool` oracle,
one index per membership check the worker performs.  Wall-clock
timestamps carried by the source's event dicts are irrelevant to every
property considered here and are omitted from `Event`.
-/

namespace MCPDocker

/-- The event dicts the source appends to stream buffers, discriminated by
their `"type"` field (`main.py` lines 1654, 1678, 1784, 1815, 1830).
Each source dict also carries `container_id[:12]`, the wall-clock
`timestamp`, and `stream_key`; the timestamp is omitted (no claim is about
real time) and the other payload fields are kept. -/
inductive Event where
  | logLine (containerId : String) (data : String)
  | commandOutput (containerId : String) (command : String) (data : String)
  | commandCompleted (containerId : String) (command : String) (exitCode : Int)
  | commandError (containerId : String) (command : String) (error : String)
  | errorEvent (containerId : String) (error : String)
  deriving DecidableEq, Repr

abbrev Buffer := List Event

/-- The buffer-append step both producers perform (`main.py` 1669–1675 and
1799–1807): `buffer.append(event)` followed by
`if len(buffer) > 1000: buffer = buffer[-500:]`.
Python `l[-500:]` is the last 500 elements, i.e. `drop (length - 500)`. -/
def appendEvent (buffer : Buffer) (e : Event) : Buffer :=
  let b := buffer ++ [e]
  if b.length > 1000 then b.drop (b.length - 500) else b

/-- Python slicing `l[i:]` for an `int` index `i`, including the negative
case: a negative start counts from the end, clamped at 0. -/
def pySliceFrom (l : List α) (i : Int) : List α :=
  if i < 0 then l.drop (max (l.length + i) 0).toNat else l.drop i.toNat

/-- One value of the loosely-typed per-stream dicts stored in
`self.active_streams`.  Different call sites populate different fields
(log streams: buffer/type/container_id/thread, command streams add
command, port relays: container_id/container_port/host_port/thread and
no buffer), so every field is optional, mirroring the ad hoc dicts. -/
structure StreamRecord where
  buffer : Option Buffer := none
  kind : Option String := none
  containerId : Option String := none
  command : Option String := none
  containerPort : Option Nat := none
  hostPort : Option Nat := none
  threadId : Option Nat := none
  deriving DecidableEq, Repr

/-- The registry `self.active_streams`: a Python dict, i.e. an insertion-ordered map. -/
abbrev Registry := List (String × StreamRecord)

/-- Python dict assignment `d[k] = v`: replace in place if the key exists
(keeping its position), else append at the end. -/
def dictInsert : Registry → String → StreamRecord → Registry
  | [], k, v => [(k, v)]
  | (k', v') :: rest, k, v =>
    if k' = k then (k, v) :: rest else (k', v') :: dictInsert rest k v

/-- The successful JSON payload of `get_stream_data` (`main.py` 1726–1734):
fields `type`/`stream_key`/`last_index`/`data`/`has_more`.  The constant
`"stream_data"` type tag is dropped; note the record has **no** truncation
field of any kind — the source never reports dropped events. -/
structure StreamDataOk where
  streamKey : String
  lastIndex : Nat
  data : List Event
  hasMore : Bool
  deriving DecidableEq, Repr

/-- Tool `get_stream_data(stream_key, last_index=0)` (`main.py` 1714–1737):
unknown key produces the `{"error": ...}` payload; otherwise
`buffer = stream_data.get("buffer", [])`, `new_data = buffer[last_index:]`,
and the response carries `last_index = len(buffer)` and
`has_more = len(new_data) > 0`. -/
def get_stream_data (activeStreams : Registry) (streamKey : String)
    (lastIndex : Int) : Except String StreamDataOk :=
  match activeStreams.lookup streamKey with
  | none => .error ("Stream " ++ streamKey ++ " not found")
  | some record =>
    let buffer := record.buffer.getD []
    let newData := pySliceFrom buffer lastIndex
    .ok ⟨streamKey, buffer.length, newData, decide (0 < newData.length)⟩

/-- The slice of `container.attrs["NetworkSettings"]` consulted by the
relay (`main.py` 4121–4127): the primary `IPAddress` and the `Networks`
map.  Python dicts iterate in insertion order, so `Networks` is an
insertion-ordered list of (network name, IPAddress) pairs. -/
structure ContainerAttrs where
  ipAddress : String
  networks : List (String × String)
  deriving DecidableEq, Repr

/-- A managed container as this subsystem sees it: its full id, its
network attributes, and the text `container.logs(tail=...)` would return
(the static branch of `stream_container_logs`). -/
structure Container where
  id : String
  attrs : ContainerAttrs
  staticLogs : String := ""
  deriving DecidableEq, Repr

/-- The mutable server state the streaming tools touch:
`self.active_containers` (insertion-ordered dict keyed by full id),
`self.active_streams`, the set of host ports on which a `bind` would
raise `OSError`, and a counter supplying fresh thread identities. -/
structure ServerState where
  activeContainers : List Container
  activeStreams : Registry
  busyHostPorts : List Nat
  nextThreadId : Nat
  deriving DecidableEq, Repr

/-- Helper `_find_container` (`main.py` 555–566): exact id match first, then the
first container whose full id has `container_id` as a prefix, else None. -/
def find_container (activeContainers : List Container) (containerId : String) :
    Option Container :=
  match activeContainers.find? (fun c => c.id = containerId) with
  | some c => some c
  | none => activeContainers.find? (fun c => containerId.isPrefixOf c.id)

/-- The stream key `f"logs_{container_id[:12]}_{int(time.time())}"`
(`main.py` 1645); `now` is the integer wall-clock second. -/
def logsKey (containerId : String) (now : Nat) : String :=
  "logs_" ++ containerId.take 12 ++ "_" ++ toString now

/-- The stream key `f"exec_{container_id[:12]}_{int(time.time())}"`
(`main.py` 1767). -/
def execKey (containerId : String) (now : Nat) : String :=
  "exec_" ++ containerId.take 12 ++ "_" ++ toString now

/-- The relay key `f"{container_id[:12]}:{container_port}"`
(`main.py` 1564). -/
def portKey (containerId : String) (containerPort : Nat) : String :=
  containerId.take 12 ++ ":" ++ toString containerPort

/-- Return values of `start_port_stream`, one constructor per formatted
string the source builds (`main.py` 1558, 1566, 1583, 1586). -/
inductive PortStreamResult where
  | containerNotFound (containerId : String)
  | alreadyActive (containerId12 : String) (containerPort : Nat)
  | started (containerId12 : String) (containerPort : Nat) (hostPort : Nat)
  deriving DecidableEq, Repr

/-- Tool `start_port_stream(container_id, container_port, host_port=None)`
(`main.py` 1550–1586).  Note the order of effects: the composite key
`f"{container_id[:12]}:{container_port}"` is checked against
`self.active_streams`; if fresh, the `_start_stream_server` **thread is
spawned and the success string is returned immediately** — the socket
`bind` happens later inside that thread, so no bind outcome can influence
this function's return value. -/
def start_port_stream (st : ServerState) (containerId : String)
    (containerPort : Nat) (hostPort : Option Nat) :
    PortStreamResult × ServerState :=
  match find_container st.activeContainers containerId with
  | none => (.containerNotFound containerId, st)
  | some _ =>
    let hp := hostPort.getD containerPort
    let streamKey := portKey containerId containerPort
    if (st.activeStreams.lookup streamKey).isSome then
      (.alreadyActive (containerId.take 12) containerPort, st)
    else
      let record : StreamRecord :=
        { containerId := some containerId, containerPort := some containerPort,
          hostPort := some hp, threadId := some st.nextThreadId }
      (.started (containerId.take 12) containerPort hp,
        { st with activeStreams := dictInsert st.activeStreams streamKey record,
                  nextThreadId := st.nextThreadId + 1 })

/-- What `_start_stream_server`'s socket setup does with its bind outcome
(`main.py` 4074–4108): the whole body sits in `try: ... except: pass`
inside a daemon thread, so a failing `bind` makes the thread exit
silently; a successful bind leaves the thread in its accept loop.
Nothing is ever reported to the caller of `start_port_stream`. -/
inductive ServerSetupOutcome where
  | bindFailedSilently
  | listening
  deriving DecidableEq, Repr

def streamServerSetup (busyHostPorts : List Nat) (hostPort : Nat) :
    ServerSetupOutcome :=
  if hostPort ∈ busyHostPorts then .bindFailedSilently else .listening

/-- Container IP resolution in `_handle_stream_client` (`main.py`
4120–4131): use `NetworkSettings.IPAddress` if non-empty, else the
`IPAddress` of `list(networks.values())[0]` — the **first entry in the
dict's insertion order** — if any network exists, and fail (error sent to
the client) if the resulting IP is still empty. -/
def resolveContainerIP (attrs : ContainerAttrs) : Option String :=
  let ip := if attrs.ipAddress ≠ "" then attrs.ipAddress
    else match attrs.networks with
      | [] => ""
      | (_, networkIP) :: _ => networkIP
  if ip = "" then none else some ip

/-- The record `stream_container_logs` installs (`main.py` 1692–1697). -/
def freshLogsRecord (containerId : String) (threadId : Nat) : StreamRecord :=
  { buffer := some [], kind := some "logs",
    containerId := some containerId, threadId := some threadId }

/-- The record `stream_command_execution` installs (`main.py` 1845–1851). -/
def freshExecRecord (containerId command : String) (threadId : Nat) :
    StreamRecord :=
  { buffer := some [], kind := some "command", containerId := some containerId,
    command := some command, threadId := some threadId }

/-- Return values of `stream_container_logs`, one constructor per JSON
payload the source builds (`main.py` 1630, 1635–1642, 1699–1708). -/
inductive LogStreamResult where
  | containerNotFound (containerId : String)
  | staticLogs (containerId12 : String) (logs : String)
  | streamStarted (containerId12 : String) (streamKey : String)
  deriving DecidableEq, Repr

/-- Tool `stream_container_logs(container_id, follow=True, tail=100)`
(`main.py` 1622–1711), registration path.  With `follow=False` it returns
the static `container.logs(tail=tail)` text.  With `follow=True` it
spawns the worker and then executes
`self.active_streams[stream_key] = {...}` — a plain dict assignment with
**no membership check**, so an already-present key is silently
overwritten.  The spawned worker's event production is modelled
separately by `stream_logs_worker`. -/
def stream_container_logs (st : ServerState) (containerId : String)
    (follow : Bool) (tail : Nat) (now : Nat) : LogStreamResult × ServerState :=
  match find_container st.activeContainers containerId with
  | none => (.containerNotFound containerId, st)
  | some c =>
    if follow then
      (.streamStarted (containerId.take 12) (logsKey containerId now),
        { st with
            activeStreams := dictInsert st.activeStreams (logsKey containerId now)
              (freshLogsRecord containerId st.nextThreadId),
            nextThreadId := st.nextThreadId + 1 })
    else
      (.staticLogs (containerId.take 12) c.staticLogs, st)

/-- Return values of `stream_command_execution`
(`main.py` 1765, 1853–1862). -/
inductive CommandStreamResult where
  | containerNotFound (containerId : String)
  | streamStarted (containerId12 : String) (command : String) (streamKey : String)
  deriving DecidableEq, Repr

/-- Tool `stream_command_execution(container_id, command)` (`main.py`
1759–1867), registration path: like the log variant it installs its
record by dict assignment with no membership check. -/
def stream_command_execution (st : ServerState) (containerId command : String)
    (now : Nat) : CommandStreamResult × ServerState :=
  match find_container st.activeContainers containerId with
  | none => (.containerNotFound containerId, st)
  | some _ =>
    (.streamStarted (containerId.take 12) command (execKey containerId now),
      { st with
          activeStreams := dictInsert st.activeStreams (execKey containerId now)
            (freshExecRecord containerId command st.nextThreadId),
          nextThreadId := st.nextThreadId + 1 })

/-! ### Worker models

The producers run in daemon threads and repeatedly test
`stream_key in self.active_streams`; concurrent registry mutation is
abstracted by an oracle `active : Nat → Bool` giving the outcome of the
worker's n-th membership check.  The workers are modelled by the sequence
of events they append (the buffer they append into is `appendEvent`,
verified separately). -/

/-- How a producer's loop ended: the iterator was exhausted normally, the
membership check failed and the loop `break`-ed, or an exception was
raised inside the loop body. -/
inductive LoopExit where
  | exhausted
  | broke
  | raised
  deriving DecidableEq, Repr

/-- The oracle for runs during which the stream key is never removed. -/
def alwaysActive : Nat → Bool := fun _ => true

/-- The guarded append every `except` handler and the completion append
perform: `if stream_key in self.active_streams: buffer.append(event)`
(`main.py` 1685–1686, 1824–1827, 1838–1839). -/
def guardedAppend (active : Nat → Bool) (n : Nat) (e : Event) : List Event :=
  if active n then [e] else []

/-- Python `str.strip()`: remove leading and trailing whitespace (spelled
out over the character list so it evaluates by reduction; `String.trim`
is defined through `Substring` well-founded recursion and does not). -/
def pyStrip (s : String) : String :=
  ⟨((s.data.dropWhile Char.isWhitespace).reverse.dropWhile
      Char.isWhitespace).reverse⟩

/-- One raw byte line yielded by `container.logs(stream=True, ...)`:
`strict` is the value of Python `bytes.decode("utf-8")` (`none` when the
bytes are not valid UTF-8, in which case that call raises
`UnicodeDecodeError`), and `replaced` is what
`decode("utf-8", errors="replace")` would have produced.  The source's
streaming path only ever calls the strict form (`main.py` 1658). -/
structure RawLine where
  strict : Option String
  replaced : String
  deriving DecidableEq, Repr

/-- The `for log_line in log_stream:` loop of `stream_logs` (`main.py`
1650–1675).  Per iteration: membership check (break when absent), strict
UTF-8 decode of the line (raising aborts the loop), a second membership
check guarding the re-registration branch (which appends no event), then
the `log_line` append with `.strip()`-ed text.  Returns the appended
events, the next check index, and how the loop ended. -/
def logsLoop (containerId12 : String) (active : Nat → Bool) :
    Nat → List RawLine → List Event × Nat × LoopExit
  | n, [] => ([], n, .exhausted)
  | n, line :: rest =>
    if active n then
      match line.strict with
      | none => ([], n + 1, .raised)
      | some s =>
        let (es, n', ex) := logsLoop containerId12 active (n + 2) rest
        (Event.logLine containerId12 (pyStrip s) :: es, n', ex)
    else ([], n + 1, .broke)

/-- The `stream_logs` worker body (`main.py` 1647–1686): run the loop
inside `try:`; any exception (the `container.logs` call itself, the
iterator, or a strict-decode failure) reaches the `except` handler, which
appends one `error` event guarded by a membership check.  Normal
exhaustion and `break` append nothing further.  The `error` payload
stands for the handler's `str(e)`. -/
def stream_logs_worker (containerId12 : String) (logsCallOk : Bool)
    (lines : List RawLine) (iterEndRaises : Bool) (active : Nat → Bool) :
    List Event :=
  if logsCallOk then
    match logsLoop containerId12 active 0 lines with
    | (es, n, .raised) =>
      es ++ guardedAppend active n (.errorEvent containerId12 "UnicodeDecodeError")
    | (es, n, .exhausted) =>
      if iterEndRaises then
        es ++ guardedAppend active n (.errorEvent containerId12 "log stream raised")
      else es
    | (es, _, .broke) => es
  else guardedAppend active 0 (.errorEvent containerId12 "logs call raised")

/-- The `for chunk in exec_stream:` loop of `execute_and_stream`
(`main.py` 1780–1807): same shape as `logsLoop`, but chunks are decoded
strictly without `.strip()` and become `command_output` events. -/
def execLoop (containerId12 command : String) (active : Nat → Bool) :
    Nat → List (Option String) → List Event × Nat × LoopExit
  | n, [] => ([], n, .exhausted)
  | n, chunk :: rest =>
    if active n then
      match chunk with
      | none => ([], n + 1, .raised)
      | some s =>
        let (es, n', ex) := execLoop containerId12 command active (n + 2) rest
        (Event.commandOutput containerId12 command s :: es, n', ex)
    else ([], n + 1, .broke)

/-- The code after the exec loop (`main.py` 1809–1827): `exec_inspect`
(`none` models it raising; `some exitCode` the value of
`exec_info.get("ExitCode", 0)`), then the guarded `command_completed`
append.  Reached both on normal exhaustion and after a `break`. -/
def execTerminal (containerId12 command : String) (inspectResult : Option Int)
    (active : Nat → Bool) (n : Nat) : List Event :=
  match inspectResult with
  | none => guardedAppend active n (.commandError containerId12 command "exec_inspect raised")
  | some exitCode => guardedAppend active n (.commandCompleted containerId12 command exitCode)

/-- The `execute_and_stream` worker body (`main.py` 1769–1839):
`setupOk = false` models `exec_create`/`exec_start` raising; a raising
loop or iterator jumps to the `except` handler, which appends one guarded
`command_error`; otherwise the terminal phase runs.  Error payloads stand
for the handler's `str(e)`. -/
def execute_and_stream_worker (containerId12 command : String) (setupOk : Bool)
    (chunks : List (Option String)) (iterEndRaises : Bool)
    (inspectResult : Option Int) (active : Nat → Bool) : List Event :=
  if setupOk then
    match execLoop containerId12 command active 0 chunks with
    | (es, n, .raised) =>
      es ++ guardedAppend active n (.commandError containerId12 command "UnicodeDecodeError")
    | (es, n, .exhausted) =>
      if iterEndRaises then
        es ++ guardedAppend active n (.commandError containerId12 command "exec stream raised")
      else es ++ execTerminal containerId12 command inspectResult active n
    | (es, n, .broke) => es ++ execTerminal containerId12 command inspectResult active n
  else guardedAppend active 0 (.commandError containerId12 command "exec setup raised")

/-- Tests whether an event is a `command_completed` event. -/
def isCommandCompleted : Event → Bool
  | .commandCompleted .. => true
  | _ => false

/-- Tests whether an event is a `command_error` event. -/
def isCommandError : Event → Bool
  | .commandError .. => true
  | _ => false

/-- Tests whether an event is a `log_line` event. -/
def isLogLine : Event → Bool
  | .logLine .. => true
  | _ => false

/-- A valid UTF-8 log line: strict decoding succeeds and the
replace-policy decoding agrees with it. -/
def validLine (s : String) : RawLine := ⟨some s, s⟩

/-- Strict lexicographic order on code points, spelled out so it
evaluates by reduction. -/
def charsLt : List Char → List Char → Bool
  | [], [] => false
  | [], _ :: _ => true
  | _ :: _, [] => false
  | a :: as, b :: bs =>
    if a.toNat < b.toNat then true
    else if a.toNat = b.toNat then charsLt as bs
    else false

/-- Lexicographic order on strings. -/
def strLt (a b : String) : Bool := charsLt a.data b.data

/-- Follows the spec's words, for comparison with `resolveContainerIP`:
"prefer its primary address, else the first network attachment in a
deterministic (e.g. lexicographically smallest network name) order". -/
def specResolveContainerIP (attrs : ContainerAttrs) : Option String :=
  if attrs.ipAddress ≠ "" then some attrs.ipAddress
  else
    match attrs.networks with
    | [] => none
    | x :: xs =>
      let best := xs.foldl (fun b y => if strLt y.1 b.1 then y else b) x
      if best.2 = "" then none else some best.2

/-! ### Concrete instances used to settle individual claims -/

/-- 1001 distinct events, the spec's §8 trimming scenario. -/
def manyEvents : List Event :=
  (List.range 1001).map fun i => Event.logLine "c1" (toString i)

/-- The registry of a log stream whose worker has appended `manyEvents`
one at a time through `appendEvent`. -/
def trimmedRegistry : Registry :=
  [("logs_c1_0", { buffer := some (List.foldl appendEvent [] manyEvents),
                   kind := some "logs" })]

/-- A server holding one container and no streams, where host port 9090
is already taken, so a `bind` on it would raise. -/
def busyPortState : ServerState :=
  { activeContainers := [{ id := "aaaabbbbccccdddd", attrs := ⟨"172.17.0.2", []⟩ }],
    activeStreams := [],
    busyHostPorts := [9090],
    nextThreadId := 0 }

/-- A stale log-stream record with one buffered event, registered under
the exact key `stream_container_logs` will recompute for container
`"aaaabbbbccccdddd"` at wall-clock second 7. -/
def staleLogsRecord : StreamRecord :=
  { buffer := some [Event.logLine "aaaabbbbcccc" "old line"],
    kind := some "logs", containerId := some "aaaabbbbccccdddd",
    threadId := some 41 }

/-- A server in which that stale record is still registered. -/
def staleKeyState : ServerState :=
  { activeContainers := [{ id := "aaaabbbbccccdddd", attrs := ⟨"172.17.0.2", []⟩ }],
    activeStreams := [("logs_aaaabbbbcccc_7", staleLogsRecord)],
    busyHostPorts := [],
    nextThreadId := 42 }

/-- A container with an empty primary IP and two network attachments,
inserted in non-alphabetical order. -/
def twoNetworkAttrs : ContainerAttrs :=
  ⟨"", [("beta-net", "10.0.0.2"), ("alpha-net", "10.0.0.3")]⟩

/-- An active relay record as `start_port_stream` would have installed it. -/
def activeRelayRecord : StreamRecord :=
  { containerId := some "aaaabbbbccccdddd", containerPort := some 80,
    hostPort := some 8080, threadId := some 0 }

/-- A server with that relay registered under `portKey`. -/
def activeRelayState : ServerState :=
  { activeContainers := [{ id := "aaaabbbbccccdddd", attrs := ⟨"172.17.0.2", []⟩ }],
    activeStreams := [("aaaabbbbcccc:80", activeRelayRecord)],
    busyHostPorts := [],
    nextThreadId := 1 }

/-! ### Buffer lemmas -/

theorem appendEvent_of_le (buffer : Buffer) (e : Event)
    (h : (buffer ++ [e]).length ≤ 1000) : appendEvent buffer e = buffer ++ [e] := by
  unfold appendEvent
  simp only [gt_iff_lt]
  rw [if_neg (by omega)]

theorem appendEvent_of_gt (buffer : Buffer) (e : Event)
    (h : (buffer ++ [e]).length > 1000) :
    appendEvent buffer e = (buffer ++ [e]).drop ((buffer ++ [e]).length - 500) := by
  unfold appendEvent
  simp only [gt_iff_lt]
  rw [if_pos (by omega)]

theorem appendEvent_length_le (buffer : Buffer) (e : Event) :
    (appendEvent buffer e).length ≤ 1000 := by
  by_cases h : (buffer ++ [e]).length > 1000
  · rw [appendEvent_of_gt buffer e h, List.length_drop]
    omega
  · rw [appendEvent_of_le buffer e (by omega)]
    omega

theorem foldl_appendEvent_eq_append (l : List Event) :
    ∀ acc : Buffer, acc.length + l.length ≤ 1000 →
      List.foldl appendEvent acc l = acc ++ l := by
  induction l with
  | nil => intro acc _; simp
  | cons e rest ih =>
    intro acc h
    rw [List.foldl_cons,
      appendEvent_of_le acc e (by simp; simp at h; omega),
      ih (acc ++ [e]) (by simp; simp at h; omega)]
    simp

theorem foldl_appendEvent_of_length_1001 (l : List Event) (h : l.length = 1001) :
    List.foldl appendEvent [] l = l.drop 501 := by
  have hsplit : l.take 1000 ++ l.drop 1000 = l := List.take_append_drop _ _
  have hl₁ : (l.take 1000).length = 1000 := by
    rw [List.length_take]; omega
  have hl₂ : (l.drop 1000).length = 1 := by
    rw [List.length_drop]; omega
  obtain ⟨x, hx⟩ := List.length_eq_one.mp hl₂
  calc List.foldl appendEvent [] l
      = List.foldl appendEvent [] (l.take 1000 ++ [x]) := by rw [← hx, hsplit]
    _ = List.foldl appendEvent (l.take 1000) [x] := by
        rw [List.foldl_append,
          foldl_appendEvent_eq_append (l.take 1000) [] (by simp [hl₁])]
        simp
    _ = appendEvent (l.take 1000) x := by
        rw [List.foldl_cons, List.foldl_nil]
    _ = l.drop 501 := by
        rw [appendEvent_of_gt (l.take 1000) x (by simp [hl₁]),
          show l.take 1000 ++ [x] = l from by rw [← hx, hsplit], h]

/-- Claim C4: For every buffer and event, a single `appendEvent` leaves at
most 1000 events; when the raw append would exceed 1000 the result is
exactly the most recent 500 events (a length-500 suffix of the appended
sequence, so relative order is preserved and the oldest are discarded);
below the cap the append is exact. -/
theorem append_cap_invariant (buffer : Buffer) (e : Event) :
    (appendEvent buffer e).length ≤ 1000 ∧
    ((buffer ++ [e]).length > 1000 →
      (appendEvent buffer e).length = 500 ∧
      appendEvent buffer e <:+ buffer ++ [e]) ∧
    ((buffer ++ [e]).length ≤ 1000 → appendEvent buffer e = buffer ++ [e]) := by
  refine ⟨appendEvent_length_le buffer e, fun h => ⟨?_, ?_⟩,
    fun h => appendEvent_of_le buffer e h⟩
  · rw [appendEvent_of_gt buffer e h, List.length_drop]
    omega
  · rw [appendEvent_of_gt buffer e h]
    exact List.drop_suffix _ _

/-- Witness for `append_cap_invariant` at a 1000-event buffer: the
overflowing append yields the length-500 suffix. -/
theorem append_cap_invariant_witness :
    ((List.replicate 1000 (Event.logLine "c" "x") ++ [Event.logLine "c" "y"]).length > 1000) ∧
    (appendEvent (List.replicate 1000 (Event.logLine "c" "x")) (Event.logLine "c" "y")).length = 500 ∧
    appendEvent (List.replicate 1000 (Event.logLine "c" "x")) (Event.logLine "c" "y")
      <:+ List.replicate 1000 (Event.logLine "c" "x") ++ [Event.logLine "c" "y"] := by
  have h : (List.replicate 1000 (Event.logLine "c" "x") ++ [Event.logLine "c" "y"]).length > 1000 := by
    rw [List.length_append, List.length_replicate, List.length_singleton]
    omega
  exact ⟨h, (append_cap_invariant (List.replicate 1000 (Event.logLine "c" "x"))
    (Event.logLine "c" "y")).2.1 h⟩

/-! ### Cursor-read theorems -/

/-- Claim C9, as far as the code goes: For a fresh stream and any N ≤ 1000
events appended through `appendEvent`, `get_stream_data` with cursor 0
returns exactly those N events in insertion order, with
`last_index = N` and `has_more = (N > 0)`.  The source's response — see
`StreamDataOk` — carries no `truncated` field at all, so the claim's
`truncated = false` has nothing in the code to correspond to. -/
theorem read_since_zero_returns_all (key : String) (events : List Event)
    (h : events.length ≤ 1000) :
    get_stream_data
        [(key, { buffer := some (List.foldl appendEvent [] events),
                 kind := some "logs" })] key 0
      = .ok ⟨key, events.length, events, decide (0 < events.length)⟩ := by
  have hfold : List.foldl appendEvent [] events = events :=
    foldl_appendEvent_eq_append events [] (by simpa using h)
  simp [get_stream_data, List.lookup, hfold, pySliceFrom]

/-- Witness for `read_since_zero_returns_all` at N = 3. -/
theorem read_since_zero_returns_all_witness :
    get_stream_data
        [("k9", { buffer := some (List.foldl appendEvent []
                    [Event.logLine "c" "one", Event.logLine "c" "two",
                     Event.logLine "c" "three"]),
                  kind := some "logs" })] "k9" 0
      = .ok ⟨"k9", 3,
             [Event.logLine "c" "one", Event.logLine "c" "two",
              Event.logLine "c" "three"], true⟩ := by
  have h := read_since_zero_returns_all "k9"
    [Event.logLine "c" "one", Event.logLine "c" "two", Event.logLine "c" "three"]
    (by simp)
  simpa using h

/-- Claim C1, what the code does at the claim's scenario: After 1001
appends the buffer has been trimmed to the last 500 events;
`get_stream_data` with cursor 0 then returns the whole retained buffer
(`manyEvents.drop 501`, i.e. starting at the oldest retained event) with
`last_index = 500` and `has_more = true` — and nothing else: the
response type has no `truncated` component, so the drop of events
0..500 is not signalled to the reader. -/
theorem trimmed_read_is_unsignalled :
    get_stream_data trimmedRegistry "logs_c1_0" 0
      = .ok ⟨"logs_c1_0", 500, manyEvents.drop 501, true⟩ := by
  have hlen : manyEvents.length = 1001 := by simp [manyEvents]
  have hfold := foldl_appendEvent_of_length_1001 manyEvents hlen
  simp [trimmedRegistry, get_stream_data, List.lookup, hfold, pySliceFrom,
    List.length_drop, hlen]

/-- Claim C10: For any registered stream and any negative cursor `c`,
`get_stream_data` succeeds, returns the trailing
`min |c| (buffer length)` buffered events (a suffix of the buffer, per
Python's negative-slice semantics), and still reports
`last_index = buffer length`. -/
theorem negative_cursor_returns_tail (reg : Registry) (key : String)
    (record : StreamRecord) (c : Int)
    (hlookup : reg.lookup key = some record) (hc : c < 0) :
    ∃ resp : StreamDataOk,
      get_stream_data reg key c = .ok resp ∧
      resp.lastIndex = (record.buffer.getD []).length ∧
      resp.data.length = min c.natAbs (record.buffer.getD []).length ∧
      resp.data <:+ record.buffer.getD [] := by
  simp only [get_stream_data, hlookup]
  refine ⟨_, rfl, rfl, ?_, ?_⟩
  · unfold pySliceFrom
    rw [if_pos hc, List.length_drop]
    omega
  · unfold pySliceFrom
    rw [if_pos hc]
    exact List.drop_suffix _ _

/-- Witness for `negative_cursor_returns_tail`: cursor −2 against a
3-event buffer returns the last two events. -/
theorem negative_cursor_returns_tail_witness :
    ∃ resp : StreamDataOk,
      get_stream_data
          [("k10", { buffer := some [Event.logLine "c" "a",
                        Event.logLine "c" "b", Event.logLine "c" "d"],
                     kind := some "logs" })] "k10" (-2) = .ok resp ∧
      resp.lastIndex = 3 ∧
      resp.data.length = 2 ∧
      resp.data <:+ [Event.logLine "c" "a", Event.logLine "c" "b",
                     Event.logLine "c" "d"] := by
  have h := negative_cursor_returns_tail
    [("k10", { buffer := some [Event.logLine "c" "a", Event.logLine "c" "b",
                 Event.logLine "c" "d"],
               kind := some "logs" })]
    "k10"
    { buffer := some [Event.logLine "c" "a", Event.logLine "c" "b",
        Event.logLine "c" "d"],
      kind := some "logs" }
    (-2) (by simp [List.lookup]) (by decide)
  simpa using h

/-! ### Registration theorems -/

theorem lookup_dictInsert_self (reg : Registry) (k : String) (v : StreamRecord) :
    (dictInsert reg k v).lookup k = some v := by
  induction reg with
  | nil => simp [dictInsert, List.lookup]
  | cons p rest ih =>
    obtain ⟨k', v'⟩ := p
    by_cases h : k' = k
    · simp [dictInsert, h, List.lookup]
    · simp only [dictInsert, if_neg h, List.lookup]
      rw [show (k == k') = false from by simp [Ne.symm h]]
      exact ih

theorem start_port_stream_dup (st : ServerState) (containerId : String)
    (containerPort : Nat) (hostPort : Option Nat) (c : Container)
    (hfind : find_container st.activeContainers containerId = some c)
    (hdup : (st.activeStreams.lookup (portKey containerId containerPort)).isSome
      = true) :
    start_port_stream st containerId containerPort hostPort
      = (.alreadyActive (containerId.take 12) containerPort, st) := by
  simp [start_port_stream, hfind, hdup]

/-- Claim C8: Calling `start_port_stream` while a relay is already
registered under `portKey(containerID, containerPort)` returns the
already-active result and returns the state unchanged — in particular the
first relay's record (container id, ports, thread) is untouched. -/
theorem second_relay_start_rejected (st : ServerState) (containerId : String)
    (containerPort : Nat) (hostPort : Option Nat) (c : Container)
    (hfind : find_container st.activeContainers containerId = some c)
    (hdup : (st.activeStreams.lookup (portKey containerId containerPort)).isSome
      = true) :
    start_port_stream st containerId containerPort hostPort
      = (.alreadyActive (containerId.take 12) containerPort, st) :=
  start_port_stream_dup st containerId containerPort hostPort c hfind hdup

/-- Witness for `second_relay_start_rejected`: a second
`start_port_stream` against `activeRelayState` is rejected and the state
(hence `activeRelayRecord`) survives verbatim. -/
theorem second_relay_start_rejected_witness :
    start_port_stream activeRelayState "aaaabbbbccccdddd" 80 none
      = (.alreadyActive "aaaabbbbcccc" 80, activeRelayState) :=
  second_relay_start_rejected activeRelayState "aaaabbbbccccdddd" 80 none
    { id := "aaaabbbbccccdddd", attrs := ⟨"172.17.0.2", []⟩ }
    (by decide) (by decide)

/-- Claim C2 counterexample: Host port 9090 is unavailable in
`busyPortState`, yet `start_port_stream` reports success (there is no
bind-error return at all) while the spawned server thread's bind fails
silently. -/
theorem bind_failure_invisible_to_caller :
    (start_port_stream busyPortState "aaaabbbbccccdddd" 9090 none).1
      = .started "aaaabbbbcccc" 9090 9090 ∧
    streamServerSetup busyPortState.busyHostPorts 9090 = .bindFailedSilently := by
  decide

/-- Claim C2 amended: When the host port is unavailable,
`start_port_stream` (container found, key fresh) nevertheless returns
the success message and registers the relay record; the bind failure
happens later inside the daemon thread, whose `except: pass` swallows
it, so no error of any kind reaches the starting call. -/
theorem start_port_stream_ignores_bind_failure (st : ServerState)
    (containerId : String) (containerPort : Nat) (c : Container)
    (hfind : find_container st.activeContainers containerId = some c)
    (hfresh : (st.activeStreams.lookup (portKey containerId containerPort)).isSome
      = false)
    (hbusy : containerPort ∈ st.busyHostPorts) :
    (start_port_stream st containerId containerPort none).1
      = .started (containerId.take 12) containerPort containerPort ∧
    (start_port_stream st containerId containerPort none).2.activeStreams.lookup
        (portKey containerId containerPort)
      = some { containerId := some containerId,
               containerPort := some containerPort,
               hostPort := some containerPort,
               threadId := some st.nextThreadId } ∧
    streamServerSetup st.busyHostPorts containerPort = .bindFailedSilently := by
  refine ⟨?_, ?_, ?_⟩
  · simp [start_port_stream, hfind, hfresh]
  · simp [start_port_stream, hfind, hfresh, lookup_dictInsert_self]
  · simp [streamServerSetup, hbusy]

/-- Witness for `start_port_stream_ignores_bind_failure` at
`busyPortState`. -/
theorem start_port_stream_ignores_bind_failure_witness :
    (start_port_stream busyPortState "aaaabbbbccccdddd" 9090 none).1
      = .started "aaaabbbbcccc" 9090 9090 ∧
    (start_port_stream busyPortState "aaaabbbbccccdddd" 9090 none).2.activeStreams.lookup
        (portKey "aaaabbbbccccdddd" 9090)
      = some { containerId := some "aaaabbbbccccdddd", containerPort := some 9090,
               hostPort := some 9090, threadId := some 0 } ∧
    streamServerSetup busyPortState.busyHostPorts 9090 = .bindFailedSilently := by
  have h := start_port_stream_ignores_bind_failure busyPortState
    "aaaabbbbccccdddd" 9090
    { id := "aaaabbbbccccdddd", attrs := ⟨"172.17.0.2", []⟩ }
    (by decide) (by decide) (by decide)
  simpa using h

/-- Claim C3 counterexample: `staleKeyState` already holds a record under
the exact key `stream_container_logs` recomputes at second 7; the second
registration nevertheless reports `stream_started` (there is no
already-active return in the function) and replaces the stale record
with a fresh empty-buffer one. -/
theorem duplicate_log_key_overwritten :
    (stream_container_logs staleKeyState "aaaabbbbccccdddd" true 100 7).1
      = .streamStarted "aaaabbbbcccc" "logs_aaaabbbbcccc_7" ∧
    staleKeyState.activeStreams.lookup "logs_aaaabbbbcccc_7"
      = some staleLogsRecord ∧
    (stream_container_logs staleKeyState "aaaabbbbccccdddd" true 100
        7).2.activeStreams.lookup "logs_aaaabbbbcccc_7"
      = some (freshLogsRecord "aaaabbbbccccdddd" 42) ∧
    freshLogsRecord "aaaabbbbccccdddd" 42 ≠ staleLogsRecord := by
  decide

/-- Claim C3 amended: Only the port relay's start operation checks its key:
with the key already present it fails already-active and leaves the
state unchanged.  `stream_container_logs` (follow mode) and
`stream_command_execution` perform no such check: they always report
`stream_started` and install a fresh record by dict assignment, so an
already-present key is silently overwritten rather than rejected. -/
theorem register_duplicate_key_semantics (st : ServerState)
    (containerId command : String) (containerPort tailCount now : Nat)
    (hostPort : Option Nat) (c : Container)
    (hfind : find_container st.activeContainers containerId = some c) :
    ((st.activeStreams.lookup (portKey containerId containerPort)).isSome = true →
      start_port_stream st containerId containerPort hostPort
        = (.alreadyActive (containerId.take 12) containerPort, st)) ∧
    ((stream_container_logs st containerId true tailCount now).1
        = .streamStarted (containerId.take 12) (logsKey containerId now) ∧
      (stream_container_logs st containerId true tailCount
          now).2.activeStreams.lookup (logsKey containerId now)
        = some (freshLogsRecord containerId st.nextThreadId)) ∧
    ((stream_command_execution st containerId command now).1
        = .streamStarted (containerId.take 12) command (execKey containerId now) ∧
      (stream_command_execution st containerId command
          now).2.activeStreams.lookup (execKey containerId now)
        = some (freshExecRecord containerId command st.nextThreadId)) := by
  refine ⟨fun hdup => start_port_stream_dup st containerId containerPort
    hostPort c hfind hdup, ⟨?_, ?_⟩, ⟨?_, ?_⟩⟩
  · simp [stream_container_logs, hfind]
  · simp [stream_container_logs, hfind, lookup_dictInsert_self]
  · simp [stream_command_execution, hfind]
  · simp [stream_command_execution, hfind, lookup_dictInsert_self]

/-- Witness for `register_duplicate_key_semantics` at
`activeRelayState`, whose relay key for port 80 is already taken. -/
theorem register_duplicate_key_semantics_witness :
    start_port_stream activeRelayState "aaaabbbbccccdddd" 80 none
      = (.alreadyActive "aaaabbbbcccc" 80, activeRelayState) ∧
    (stream_container_logs activeRelayState "aaaabbbbccccdddd" true 100 7).1
      = .streamStarted "aaaabbbbcccc" (logsKey "aaaabbbbccccdddd" 7) ∧
    (stream_container_logs activeRelayState "aaaabbbbccccdddd" true 100
        7).2.activeStreams.lookup (logsKey "aaaabbbbccccdddd" 7)
      = some (freshLogsRecord "aaaabbbbccccdddd" 1) ∧
    (stream_command_execution activeRelayState "aaaabbbbccccdddd" "echo hi" 7).1
      = .streamStarted "aaaabbbbcccc" "echo hi" (execKey "aaaabbbbccccdddd" 7) ∧
    (stream_command_execution activeRelayState "aaaabbbbccccdddd" "echo hi"
        7).2.activeStreams.lookup (execKey "aaaabbbbccccdddd" 7)
      = some (freshExecRecord "aaaabbbbccccdddd" "echo hi" 1) := by
  have h := register_duplicate_key_semantics activeRelayState
    "aaaabbbbccccdddd" "echo hi" 80 100 7 none
    { id := "aaaabbbbccccdddd", attrs := ⟨"172.17.0.2", []⟩ }
    (by decide)
  exact ⟨h.1 (by decide), h.2.1.1, h.2.1.2, h.2.2.1, h.2.2.2⟩

/-! ### Relay IP resolution -/

/-- Claim C7, refutation at the failing input: With an empty primary IP
and networks inserted as `beta-net` then `alpha-net`, the relay picks
`beta-net`'s address — the first entry in dict insertion order — while
the spec's lexicographic tie-break picks `alpha-net`'s, so the two
disagree on the very same container attributes. -/
theorem ip_resolution_follows_insertion_order :
    resolveContainerIP twoNetworkAttrs = some "10.0.0.2" ∧
    specResolveContainerIP twoNetworkAttrs = some "10.0.0.3" ∧
    resolveContainerIP twoNetworkAttrs ≠ specResolveContainerIP twoNetworkAttrs := by
  decide

/-! ### Producer-loop lemmas -/

theorem execLoop_map_some (containerId12 command : String)
    (chunks : List String) :
    ∀ n, execLoop containerId12 command alwaysActive n (chunks.map some)
      = (chunks.map (Event.commandOutput containerId12 command),
         n + 2 * chunks.length, .exhausted) := by
  induction chunks with
  | nil => intro n; simp [execLoop]
  | cons s rest ih =>
    intro n
    simp only [List.map_cons, execLoop, alwaysActive, if_true, ih (n + 2),
      List.length_cons]
    refine Prod.ext rfl (Prod.ext ?_ rfl)
    simp
    omega

theorem execLoop_events_output (containerId12 command : String)
    (active : Nat → Bool) :
    ∀ (chunks : List (Option String)) (n : Nat),
      ∀ e ∈ (execLoop containerId12 command active n chunks).1,
        ∃ s, e = Event.commandOutput containerId12 command s := by
  intro chunks
  induction chunks with
  | nil => intro n e he; simp [execLoop] at he
  | cons c rest ih =>
    intro n e he
    by_cases ha : active n
    · match c with
      | none => simp [execLoop, ha] at he
      | some s =>
        rcases hE : execLoop containerId12 command active (n + 2) rest
          with ⟨es, n', ex⟩
        simp only [execLoop, ha, if_true, hE] at he
        rcases List.mem_cons.mp he with h1 | h2
        · exact ⟨s, h1⟩
        · have := ih (n + 2) e
          rw [hE] at this
          exact this h2
    · simp [execLoop, ha] at he

theorem execLoop_raised_of_mem_none (containerId12 command : String) :
    ∀ (chunks : List (Option String)), none ∈ chunks →
      ∀ n, (execLoop containerId12 command alwaysActive n chunks).2.2
        = .raised := by
  intro chunks
  induction chunks with
  | nil => intro h; simp at h
  | cons c rest ih =>
    intro h n
    match c with
    | none => simp [execLoop, alwaysActive]
    | some s =>
      have hrest : none ∈ rest := by
        rcases List.mem_cons.mp h with h1 | h2
        · exact absurd h1 (by simp)
        · exact h2
      have := ih hrest (n + 2)
      simp only [execLoop, alwaysActive, if_true]
      rcases hE : execLoop containerId12 command alwaysActive (n + 2) rest
        with ⟨es, n', ex⟩
      rw [hE] at this
      simpa using this

theorem execLoop_exhausted_of_not_mem_none (containerId12 command : String) :
    ∀ (chunks : List (Option String)), none ∉ chunks →
      ∀ n, (execLoop containerId12 command alwaysActive n chunks).2.2
        = .exhausted := by
  intro chunks
  induction chunks with
  | nil => intro _ n; simp [execLoop]
  | cons c rest ih =>
    intro h n
    match c with
    | none => exact absurd (List.mem_cons_self _ _) h
    | some s =>
      have hrest : none ∉ rest := fun hr => h (List.mem_cons_of_mem _ hr)
      have := ih hrest (n + 2)
      simp only [execLoop, alwaysActive, if_true]
      rcases hE : execLoop containerId12 command alwaysActive (n + 2) rest
        with ⟨es, n', ex⟩
      rw [hE] at this
      simpa using this

theorem guardedAppend_cases (active : Nat → Bool) (n : Nat) (e : Event) :
    guardedAppend active n e = [] ∨ guardedAppend active n e = [e] := by
  unfold guardedAppend
  by_cases h : active n
  · right; simp [h]
  · left; simp [h]

theorem execute_worker_decomposition (containerId12 command : String)
    (setupOk : Bool) (chunks : List (Option String)) (iterEndRaises : Bool)
    (inspectResult : Option Int) (active : Nat → Bool) :
    ∃ es t,
      execute_and_stream_worker containerId12 command setupOk chunks
        iterEndRaises inspectResult active = es ++ t ∧
      (∀ e ∈ es, ∃ s, e = Event.commandOutput containerId12 command s) ∧
      (t = []
        ∨ (∃ err, t = [Event.commandError containerId12 command err])
        ∨ (∃ ec, t = [Event.commandCompleted containerId12 command ec])) := by
  have tcases : ∀ n : Nat,
      execTerminal containerId12 command inspectResult active n = []
      ∨ (∃ err, execTerminal containerId12 command inspectResult active n
          = [Event.commandError containerId12 command err])
      ∨ (∃ ec, execTerminal containerId12 command inspectResult active n
          = [Event.commandCompleted containerId12 command ec]) := by
    intro n
    unfold execTerminal
    cases inspectResult with
    | none =>
      rcases guardedAppend_cases active n
        (.commandError containerId12 command "exec_inspect raised") with h | h
      · exact Or.inl h
      · exact Or.inr (Or.inl ⟨_, h⟩)
    | some ec =>
      rcases guardedAppend_cases active n
        (.commandCompleted containerId12 command ec) with h | h
      · exact Or.inl h
      · exact Or.inr (Or.inr ⟨ec, h⟩)
  cases setupOk with
  | false =>
    rcases guardedAppend_cases active 0
      (.commandError containerId12 command "exec setup raised") with h | h
    · exact ⟨[], [], by simp [execute_and_stream_worker, h], by simp, Or.inl rfl⟩
    · exact ⟨[], [Event.commandError containerId12 command "exec setup raised"],
        by simp [execute_and_stream_worker, h], by simp,
        Or.inr (Or.inl ⟨_, rfl⟩)⟩
  | true =>
    rcases hE : execLoop containerId12 command active 0 chunks with ⟨es, n, ex⟩
    have hout := execLoop_events_output containerId12 command active chunks 0
    rw [hE] at hout
    cases ex with
    | raised =>
      rcases guardedAppend_cases active n
        (.commandError containerId12 command "UnicodeDecodeError") with h | h
      · exact ⟨es, [], by simp [execute_and_stream_worker, hE, h], hout, Or.inl rfl⟩
      · exact ⟨es, [Event.commandError containerId12 command "UnicodeDecodeError"],
          by simp [execute_and_stream_worker, hE, h], hout,
          Or.inr (Or.inl ⟨_, rfl⟩)⟩
    | exhausted =>
      cases iterEndRaises with
      | true =>
        rcases guardedAppend_cases active n
          (.commandError containerId12 command "exec stream raised") with h | h
        · exact ⟨es, [], by simp [execute_and_stream_worker, hE, h], hout, Or.inl rfl⟩
        · exact ⟨es, [Event.commandError containerId12 command "exec stream raised"],
            by simp [execute_and_stream_worker, hE, h], hout,
            Or.inr (Or.inl ⟨_, rfl⟩)⟩
      | false =>
        rcases tcases n with h | ⟨err, h⟩ | ⟨ec, h⟩
        · exact ⟨es, [], by simp [execute_and_stream_worker, hE, h], hout, Or.inl rfl⟩
        · exact ⟨es, [Event.commandError containerId12 command err],
            by simp [execute_and_stream_worker, hE, h], hout,
            Or.inr (Or.inl ⟨err, rfl⟩)⟩
        · exact ⟨es, [Event.commandCompleted containerId12 command ec],
            by simp [execute_and_stream_worker, hE, h], hout,
            Or.inr (Or.inr ⟨ec, rfl⟩)⟩
    | broke =>
      rcases tcases n with h | ⟨err, h⟩ | ⟨ec, h⟩
      · exact ⟨es, [], by simp [execute_and_stream_worker, hE, h], hout, Or.inl rfl⟩
      · exact ⟨es, [Event.commandError containerId12 command err],
          by simp [execute_and_stream_worker, hE, h], hout,
          Or.inr (Or.inl ⟨err, rfl⟩)⟩
      · exact ⟨es, [Event.commandCompleted containerId12 command ec],
          by simp [execute_and_stream_worker, hE, h], hout,
          Or.inr (Or.inr ⟨ec, rfl⟩)⟩

theorem getLast_of_concat (l : List α) (a : α) : (l ++ [a]).getLast? = some a := by
  rw [List.getLast?_append_cons]
  rfl

/-- Claim C5: Terminal events of `execute_and_stream`:
(1) a run whose setup, chunk decoding, iteration and exit-code
inspection all succeed, on a never-stopped stream, appends exactly the
`command_output` events in order followed by exactly one
`command_completed` carrying the exit code, as the last event;
(2) a run that fails at any stage (setup, a chunk's strict decode, the
iterator, or `exec_inspect`) ends in a `command_error` and appends no
`command_completed`;
(3) for every input and every interleaving oracle, no single run ever
appends both a `command_completed` and a `command_error`. -/
theorem command_stream_terminal_events (containerId12 command : String)
    (chunks : List String) (exitCode : Int) (setupOk : Bool)
    (rawChunks : List (Option String)) (iterEndRaises : Bool)
    (inspectResult : Option Int) (active : Nat → Bool) :
    (execute_and_stream_worker containerId12 command true (chunks.map some)
        false (some exitCode) alwaysActive
      = chunks.map (Event.commandOutput containerId12 command)
        ++ [Event.commandCompleted containerId12 command exitCode]) ∧
    ((setupOk = false ∨ none ∈ rawChunks ∨ iterEndRaises = true
        ∨ inspectResult = none) →
      (∃ err, (execute_and_stream_worker containerId12 command setupOk
          rawChunks iterEndRaises inspectResult alwaysActive).getLast?
        = some (Event.commandError containerId12 command err)) ∧
      (∀ e ∈ execute_and_stream_worker containerId12 command setupOk
          rawChunks iterEndRaises inspectResult alwaysActive,
        isCommandCompleted e = false)) ∧
    (¬ ((∃ e ∈ execute_and_stream_worker containerId12 command setupOk
          rawChunks iterEndRaises inspectResult active,
            isCommandCompleted e = true) ∧
        (∃ e ∈ execute_and_stream_worker containerId12 command setupOk
          rawChunks iterEndRaises inspectResult active,
            isCommandError e = true))) := by
  refine ⟨?_, ?_, ?_⟩
  · have hE := execLoop_map_some containerId12 command chunks 0
    simp [execute_and_stream_worker, hE, execTerminal, guardedAppend,
      alwaysActive]
  · intro hfail
    cases setupOk with
    | false =>
      constructor
      · exact ⟨"exec setup raised",
          by simp [execute_and_stream_worker, guardedAppend, alwaysActive]⟩
      · intro e he
        simp [execute_and_stream_worker, guardedAppend, alwaysActive] at he
        simp [he, isCommandCompleted]
    | true =>
      rcases hE : execLoop containerId12 command alwaysActive 0 rawChunks
        with ⟨es, n, ex⟩
      have hout := execLoop_events_output containerId12 command alwaysActive
        rawChunks 0
      rw [hE] at hout
      have houtflat : ∀ e ∈ es, isCommandCompleted e = false := by
        intro e he
        rcases hout e he with ⟨s, rfl⟩
        simp [isCommandCompleted]
      by_cases hnone : none ∈ rawChunks
      · have hex : ex = .raised := by
          have := execLoop_raised_of_mem_none containerId12 command
            rawChunks hnone 0
          rw [hE] at this
          exact this
        subst hex
        have hw : execute_and_stream_worker containerId12 command true
            rawChunks iterEndRaises inspectResult alwaysActive
            = es ++ [Event.commandError containerId12 command "UnicodeDecodeError"] := by
          simp [execute_and_stream_worker, hE, guardedAppend, alwaysActive]
        rw [hw]
        refine ⟨⟨_, getLast_of_concat _ _⟩, ?_⟩
        intro e he
        rcases List.mem_append.mp he with h1 | h2
        · exact houtflat e h1
        · simp at h2
          simp [h2, isCommandCompleted]
      · have hex : ex = .exhausted := by
          have := execLoop_exhausted_of_not_mem_none containerId12 command
            rawChunks hnone 0
          rw [hE] at this
          exact this
        subst hex
        cases iterEndRaises with
        | true =>
          have hw : execute_and_stream_worker containerId12 command true
              rawChunks true inspectResult alwaysActive
              = es ++ [Event.commandError containerId12 command "exec stream raised"] := by
            simp [execute_and_stream_worker, hE, guardedAppend, alwaysActive]
          rw [hw]
          refine ⟨⟨_, getLast_of_concat _ _⟩, ?_⟩
          intro e he
          rcases List.mem_append.mp he with h1 | h2
          · exact houtflat e h1
          · simp at h2
            simp [h2, isCommandCompleted]
        | false =>
          have hinspect : inspectResult = none := by
            rcases hfail with h | h | h | h
            · exact absurd h (by simp)
            · exact absurd h hnone
            · exact absurd h (by simp)
            · exact h
          subst hinspect
          have hw : execute_and_stream_worker containerId12 command true
              rawChunks false none alwaysActive
              = es ++ [Event.commandError containerId12 command "exec_inspect raised"] := by
            simp [execute_and_stream_worker, hE, execTerminal, guardedAppend,
              alwaysActive]
          rw [hw]
          refine ⟨⟨_, getLast_of_concat _ _⟩, ?_⟩
          intro e he
          rcases List.mem_append.mp he with h1 | h2
          · exact houtflat e h1
          · simp at h2
            simp [h2, isCommandCompleted]
  · rintro ⟨⟨e1, he1, hc1⟩, ⟨e2, he2, hc2⟩⟩
    rcases execute_worker_decomposition containerId12 command setupOk rawChunks
      iterEndRaises inspectResult active with ⟨es, t, heq, hes, ht⟩
    rw [heq] at he1 he2
    have he1t : e1 ∈ t := by
      rcases List.mem_append.mp he1 with h | h
      · rcases hes e1 h with ⟨s, rfl⟩
        simp [isCommandCompleted] at hc1
      · exact h
    have he2t : e2 ∈ t := by
      rcases List.mem_append.mp he2 with h | h
      · rcases hes e2 h with ⟨s, rfl⟩
        simp [isCommandError] at hc2
      · exact h
    rcases ht with rfl | ⟨err, rfl⟩ | ⟨ec, rfl⟩
    · simp at he1t
    · simp at he1t
      simp [he1t, isCommandCompleted] at hc1
    · simp at he2t
      simp [he2t, isCommandError] at hc2

/-- Witness for `command_stream_terminal_events`: the spec's §8 scenario
(one chunk `"hi\n"`, exit code 0) and a failing setup run. -/
theorem command_stream_terminal_events_witness :
    (execute_and_stream_worker "c5c5c5c5c5c5" "echo hi" true [some "hi\n"]
        false (some 0) alwaysActive
      = [Event.commandOutput "c5c5c5c5c5c5" "echo hi" "hi\n",
         Event.commandCompleted "c5c5c5c5c5c5" "echo hi" 0]) ∧
    (∃ err, (execute_and_stream_worker "c5c5c5c5c5c5" "echo hi" false []
        false none alwaysActive).getLast?
      = some (Event.commandError "c5c5c5c5c5c5" "echo hi" err)) := by
  have h := command_stream_terminal_events "c5c5c5c5c5c5" "echo hi" ["hi\n"] 0
    false [] false none alwaysActive
  exact ⟨by simpa using h.1, (h.2.1 (Or.inl rfl)).1⟩

theorem logsLoop_map_valid (containerId12 : String) (lines : List String) :
    ∀ n, logsLoop containerId12 alwaysActive n (lines.map validLine)
      = (lines.map (fun s => Event.logLine containerId12 (pyStrip s)),
         n + 2 * lines.length, .exhausted) := by
  induction lines with
  | nil => intro n; simp [logsLoop]
  | cons s rest ih =>
    intro n
    simp only [List.map_cons, logsLoop, alwaysActive, if_true, validLine,
      ih (n + 2), List.length_cons]
    refine Prod.ext rfl (Prod.ext ?_ rfl)
    simp
    omega

theorem logsLoop_valid_then_bad (containerId12 : String) (good : List String)
    (bad : RawLine) (rest : List RawLine) (hbad : bad.strict = none) :
    ∀ n, logsLoop containerId12 alwaysActive n (good.map validLine ++ bad :: rest)
      = (good.map (fun s => Event.logLine containerId12 (pyStrip s)),
         n + 2 * good.length + 1, .raised) := by
  induction good with
  | nil =>
    intro n
    simp [logsLoop, alwaysActive, hbad]
  | cons s more ih =>
    intro n
    simp only [List.map_cons, List.cons_append, logsLoop, alwaysActive,
      if_true, validLine, List.append_eq, ih (n + 2), List.length_cons]
    refine Prod.ext rfl (Prod.ext ?_ rfl)
    simp
    omega

/-- Claim C6 counterexample: One log line of invalid UTF-8: the worker
appends a single `error` event and terminates; no `log_line` event (with
replacement characters or otherwise) is ever appended, because the
source decodes strictly (`log_line.decode("utf-8")`, `main.py` 1658) and
the resulting `UnicodeDecodeError` lands in the worker's catch-all
handler. -/
theorem invalid_line_kills_stream :
    stream_logs_worker "c6c6c6c6c6c6" true [⟨none, "h�i"⟩] false alwaysActive
      = [Event.errorEvent "c6c6c6c6c6c6" "UnicodeDecodeError"] ∧
    ∀ e ∈ stream_logs_worker "c6c6c6c6c6c6" true [⟨none, "h�i"⟩] false
        alwaysActive, isLogLine e = false := by
  decide

/-- Claim C6 amended: The log producer decodes strictly, not with a
replace policy: on a never-stopped stream every valid-UTF-8 line yields
one `log_line` event with the strict-decoded, stripped text, in order;
the first invalid line yields no `log_line` at all — the raised
`UnicodeDecodeError` reaches the handler, which appends one `error`
event, and the stream terminates there (later lines are never read). -/
theorem log_stream_decodes_strictly (containerId12 : String)
    (valid good : List String) (bad : RawLine) (rest : List RawLine)
    (hbad : bad.strict = none) :
    (stream_logs_worker containerId12 true (valid.map validLine) false
        alwaysActive
      = valid.map (fun s => Event.logLine containerId12 (pyStrip s))) ∧
    (stream_logs_worker containerId12 true (good.map validLine ++ bad :: rest)
        false alwaysActive
      = good.map (fun s => Event.logLine containerId12 (pyStrip s))
        ++ [Event.errorEvent containerId12 "UnicodeDecodeError"]) ∧
    (∀ e ∈ stream_logs_worker containerId12 true
        (good.map validLine ++ bad :: rest) false alwaysActive,
      isLogLine e = true →
        e ∈ good.map (fun s => Event.logLine containerId12 (pyStrip s))) := by
  have hvalid := logsLoop_map_valid containerId12 valid 0
  have hmix := logsLoop_valid_then_bad containerId12 good bad rest hbad 0
  refine ⟨?_, ?_, ?_⟩
  · simp [stream_logs_worker, hvalid]
  · simp [stream_logs_worker, hmix, guardedAppend, alwaysActive]
  · intro e he hlog
    have hw : stream_logs_worker containerId12 true
        (good.map validLine ++ bad :: rest) false alwaysActive
        = good.map (fun s => Event.logLine containerId12 (pyStrip s))
          ++ [Event.errorEvent containerId12 "UnicodeDecodeError"] := by
      simp [stream_logs_worker, hmix, guardedAppend, alwaysActive]
    rw [hw] at he
    rcases List.mem_append.mp he with h1 | h2
    · exact h1
    · simp at h2
      rw [h2] at hlog
      simp [isLogLine] at hlog

/-- Witness for `log_stream_decodes_strictly`: one valid line `"ok"`,
then a run with valid `"hi "` followed by an undecodable line. -/
theorem log_stream_decodes_strictly_witness :
    (stream_logs_worker "c6c6c6c6c6c6" true [validLine "ok"] false alwaysActive
      = [Event.logLine "c6c6c6c6c6c6" "ok"]) ∧
    (stream_logs_worker "c6c6c6c6c6c6" true
        [validLine "hi ", ⟨none, "bad"⟩] false alwaysActive
      = [Event.logLine "c6c6c6c6c6c6" "hi",
         Event.errorEvent "c6c6c6c6c6c6" "UnicodeDecodeError"]) := by
  have h := log_stream_decodes_strictly "c6c6c6c6c6c6" ["ok"] ["hi "]
    ⟨none, "bad"⟩ [] rfl
  have htrim1 : pyStrip "ok" = "ok" := by decide
  have htrim2 : pyStrip "hi " = "hi" := by decide
  constructor
  · have h1 := h.1
    simp only [List.map_cons, List.map_nil, htrim1] at h1
    exact h1
  · have h2 := h.2.1
    simp only [List.map_cons, List.map_nil, htrim2] at h2
    simpa using h2

end MCPDocker
